import Mathlib

/-!
Verification of the ProofBrief backend (`backend/functions/*.py`) against its
natural-language specification.  Python functions are shallowly embedded as
executable Lean definitions: database tables become lists of row structures,
wall-clock timestamps become integers (seconds), and calls to external
services (HTTP, Bedrock, S3) are parameterised by their observable outcomes.
-/

set_option autoImplicit false

namespace ProofBrief

/-- Brief lifecycle status values (column `briefs.status`).  The relational
model declares the default `'PENDING'`; `save_output.py` writes `'DONE'` and
`api._expire_stale_pending` writes `'FAILED'`. -/
inductive BriefStatus where
  | PENDING
  | PROCESSING
  | DONE
  | FAILED
  | CANCELLED
deriving DecidableEq, Repr

/-- A row of the `briefs` table (consumed columns only); `createdAt` is a
UNIX timestamp in seconds. -/
structure BriefRow where
  id : Nat
  userId : Nat
  candidateId : Nat
  jobId : Nat
  status : BriefStatus
  s3OutputPath : Option String
  createdAt : Int
deriving DecidableEq, Repr

/-- A row of the `users` table (consumed columns only). -/
structure UserRow where
  id : Nat
  cognitoId : String
deriving DecidableEq, Repr

/-- The WHERE clause of the UPDATE in `api._expire_stale_pending`:
`status = 'PENDING' AND created_at < cutoff` with `cutoff = now - 60*minutes`,
plus the optional `AND id = :bid` filter added when a brief id is passed.
`bid.getD r.id = r.id` is `True` when no filter is given and `b = r.id`
when the filter `some b` is given. -/
def expireCond (now : Int) (minutes : Int) (bid : Option Nat) (r : BriefRow) : Prop :=
  r.status = BriefStatus.PENDING ∧ r.createdAt < now - 60 * minutes ∧ bid.getD r.id = r.id

instance (now minutes : Int) (bid : Option Nat) (r : BriefRow) :
    Decidable (expireCond now minutes bid r) := by
  unfold expireCond; infer_instance

/-- Effect of `api._expire_stale_pending` on one row: `SET status = 'FAILED'`
exactly when the WHERE clause selects the row. -/
def expireRow (now : Int) (minutes : Int) (bid : Option Nat) (r : BriefRow) : BriefRow :=
  if expireCond now minutes bid r then { r with status := BriefStatus.FAILED } else r

/-- `api._expire_stale_pending`: the UPDATE applied to every row of `briefs`. -/
def expireStalePending (now : Int) (minutes : Int) (bid : Option Nat)
    (briefs : List BriefRow) : List BriefRow :=
  briefs.map (expireRow now minutes bid)

/-- HTTP response of an API route (status code only; bodies are JSON blobs
irrelevant to the claims). -/
structure ApiResp where
  statusCode : Nat
deriving DecidableEq, Repr

/-- State visible to the API handler: the joined tables it touches plus the
list of orchestrator (Step Functions) executions started so far, recorded by
the brief id passed as execution input. -/
structure ApiState where
  users : List UserRow
  briefs : List BriefRow
  executions : List Nat
deriving DecidableEq, Repr

/-- The ownership SELECT of `api.put_brief_start`: a row of `briefs` joined
with `users` on `user_id` with `id = :bid AND cognito_id = :cog` exists. -/
def briefOwned (st : ApiState) (sub : String) (bid : Nat) : Bool :=
  st.briefs.any fun b =>
    b.id == bid && st.users.any fun u => u.id == b.userId && u.cognitoId == sub

/-- `api.put_brief_start`: validate ownership, then start one Step Functions
execution and answer 202; on a failed ownership check answer 404.  No write
to the `briefs` table occurs on either path. -/
def put_brief_start (sub : String) (bid : Nat) (st : ApiState) : ApiResp × ApiState :=
  if briefOwned st sub bid then
    (⟨202⟩, { st with executions := st.executions ++ [bid] })
  else
    (⟨404⟩, st)

/-- `save_output.handler`'s DB write: `UPDATE briefs SET status='DONE',
s3_output_path=:path WHERE id=:brief_id`. -/
def save_output_update (bid : Nat) (key : String) (briefs : List BriefRow) : List BriefRow :=
  briefs.map fun b =>
    if b.id = bid then { b with status := BriefStatus.DONE, s3OutputPath := some key } else b

/-- Concrete API state used as counterexample input: one user owning one
PENDING brief, no execution started yet. -/
def startDemoState : ApiState :=
  { users := [⟨1, "sub-a"⟩]
  , briefs := [⟨7, 1, 2, 3, BriefStatus.PENDING, none, 0⟩]
  , executions := [] }

/-- Observable fields of an HTTP response consumed by
`process_content._req_with_retries`: the status code, whether the lower-cased
body contains `"rate limit"`, the `X-RateLimit-Reset` header (if present, as
an integer), and the value of `int(time.time())` at the moment the response
is handled. -/
structure HttpResp where
  status : Nat
  bodyRateLimit : Bool
  reset : Option Int
  now : Int
deriving DecidableEq, Repr

/-- Outcome of one `session.get` call: either it raises a
`requests.RequestException` or it returns a response. -/
inductive GetResult where
  | netErr
  | resp (r : HttpResp)
deriving DecidableEq, Repr

/-- Result of `_req_with_retries` as observed by its caller. -/
inductive ReqOutcome where
  /-- `return resp` -/
  | success (r : HttpResp)
  /-- the final `requests.RequestException` propagates (`raise`) -/
  | raised
  /-- the `for` loop finished all iterations: the function returns `None` -/
  | noneReturn
  /-- the environment trace was exhausted (unspecified further behaviour) -/
  | stuck
deriving DecidableEq, Repr

/-- Python exceptions distinguished by the embedding. -/
inductive PyErr where
  | requestException
  | attributeError
  | bedrockError
deriving DecidableEq, Repr

/-- The sleep duration of the rate-limit branch:
`max(1, int(reset) - int(time.time())) if reset else math.ceil(backoff)`. -/
def rateWait (backoff : ℚ) (r : HttpResp) : ℚ :=
  match r.reset with
  | some t => max 1 (((t - r.now : Int) : ℚ))
  | none => ((⌈backoff⌉ : ℤ) : ℚ)

/-- The loop of `process_content._req_with_retries`, embedded over the trace
of outcomes of the successive `session.get` calls.  `attempt` is the loop
index of `for attempt in range(retries)`, `backoff` the current backoff in
seconds (initially `0.5`), and `sleeps` accumulates every `time.sleep`
duration in order.  A 403 response whose body flags a rate limit sleeps
`rateWait` and `continue`s (advancing the loop index, keeping `backoff`);
any other 4xx/5xx response or network error sleeps `backoff` and doubles it,
except on the last iteration where the exception is re-raised; when the loop
index reaches `retries` the function falls through and returns `None`. -/
def reqGo (retries attempt : Nat) (backoff : ℚ) (sleeps : List ℚ) :
    List GetResult → ReqOutcome × List ℚ
  | [] => if attempt < retries then (ReqOutcome.stuck, sleeps) else (ReqOutcome.noneReturn, sleeps)
  | e :: rest =>
    if attempt < retries then
      match e with
      | GetResult.netErr =>
          if attempt = retries - 1 then (ReqOutcome.raised, sleeps)
          else reqGo retries (attempt + 1) (backoff * 2) (sleeps ++ [backoff]) rest
      | GetResult.resp r =>
          if r.status = 403 ∧ r.bodyRateLimit then
            reqGo retries (attempt + 1) backoff (sleeps ++ [rateWait backoff r]) rest
          else if 400 ≤ r.status ∧ r.status < 600 then
            if attempt = retries - 1 then (ReqOutcome.raised, sleeps)
            else reqGo retries (attempt + 1) (backoff * 2) (sleeps ++ [backoff]) rest
          else (ReqOutcome.success r, sleeps)
    else (ReqOutcome.noneReturn, sleeps)

/-- `process_content._req_with_retries` at its default arguments
(`retries=4`, initial backoff `0.5`). -/
def reqWithRetries (trace : List GetResult) : ReqOutcome × List ℚ :=
  reqGo 4 0 (1 / 2) [] trace

/-- `e` is a 403 response whose body indicates a rate limit. -/
def IsRateLimited (e : GetResult) : Prop :=
  ∃ r, e = GetResult.resp r ∧ r.status = 403 ∧ r.bodyRateLimit = true

/-- `process_content._get_default_branch`: one wrapped GET, then
`data = r.json() or {}` and `data.get("default_branch") or "main"`.
`branchOf` abstracts the JSON payload of a response.  When the wrapper
returns `None`, the attribute access `r.json()` on `None` raises
`AttributeError` (there is no guard in the source); this is modelled as
`Except.error .attributeError`. -/
def getDefaultBranch (trace : List GetResult) (branchOf : HttpResp → Option String) :
    Except PyErr String :=
  match (reqWithRetries trace).1 with
  | ReqOutcome.success r => Except.ok ((branchOf r).getD "main")
  | ReqOutcome.raised => Except.error PyErr.requestException
  | ReqOutcome.stuck => Except.error PyErr.requestException
  | ReqOutcome.noneReturn => Except.error PyErr.attributeError

/-- A 403 rate-limited response used in concrete traces: reset hint at time
100, observed at time 50 (so the computed wait is 50 s). -/
def rlResp : GetResult := GetResult.resp ⟨403, true, some 100, 50⟩

/-- A trace on which every one of the 4 loop iterations of
`_req_with_retries` takes the rate-limit branch. -/
def rlTrace : List GetResult := [rlResp, rlResp, rlResp, rlResp]

/-- Fields of one element of the GitHub `/users/{u}/repos` JSON answer that
`scrape_github_profile` consumes (the other recorded keys play no role in
any claim). -/
structure RepoMeta where
  htmlUrl : Option String
  name : Option String
  stars : Nat
deriving DecidableEq, Repr

/-- An artifact dict as built by `scrape_github_profile` (consumed keys). -/
structure Artifact where
  type : String
  url : Option String
  title : Option String
  status : String
deriving DecidableEq, Repr

/-- The dict appended for each repo of a page. -/
def repoToArtifact (r : RepoMeta) : Artifact :=
  { type := "GITHUB_REPO", url := r.htmlUrl, title := r.name
  , status := toString r.stars ++ " stars" }

/-- Outcome of fetching one page inside `scrape_github_profile`:
the wrapped GET returned a response whose JSON parsed to a repo list, or it
raised `requests.RequestException` (caught: the page loop breaks), or the
wrapper returned `None` — in which case `r.json()` raises `AttributeError`,
which `except requests.RequestException` does **not** catch. -/
inductive PageFetch where
  | pageOk (repos : List RepoMeta)
  | reqErr
  | wrapperNone
deriving Repr

/-- `l.rstrip('/')` on a character list. -/
def rstripSlash (l : List Char) : List Char :=
  (l.reverse.dropWhile (fun c => c == '/')).reverse

/-- The characters after the last `'/'` (`split('/')[-1]`). -/
def lastSeg (l : List Char) : List Char :=
  (l.reverse.takeWhile (fun c => !(c == '/'))).reverse

/-- `process_content._username_from_url`. -/
def usernameFromUrl (s : String) : String :=
  if s = "" then ""
  else if "http".data.isPrefixOf s.data then String.mk (lastSeg (rstripSlash s.data))
  else s

/-- The page loop of `scrape_github_profile`: `page` is the 1-based page
number, the second argument the number of pages still allowed
(`math.ceil(max_repos/5)` minus the pages already fetched).  Every repo of a
page is appended until `max_repos` artifacts are collected; the loop breaks
once the cap is reached or an empty page arrives. -/
def scrapeGo (fetch : Nat → PageFetch) (maxRepos : Nat) :
    Nat → Nat → List Artifact → Except PyErr (List Artifact)
  | _, 0, acc => Except.ok acc
  | page, pagesLeft + 1, acc =>
    match fetch page with
    | PageFetch.reqErr => Except.ok acc
    | PageFetch.wrapperNone => Except.error PyErr.attributeError
    | PageFetch.pageOk repos =>
        let acc' := acc ++ (repos.take (maxRepos - acc.length)).map repoToArtifact
        if maxRepos ≤ acc'.length ∨ repos = [] then Except.ok acc'
        else scrapeGo fetch maxRepos (page + 1) pagesLeft acc'

/-- `process_content.scrape_github_profile`, parameterised by the per-page
fetch outcome.  Page size is fixed at 5; `(maxRepos + 4) / 5` is
`math.ceil(max_repos / 5)`. -/
def scrape_github_profile (usernameOrUrl : String) (fetch : Nat → PageFetch)
    (maxRepos : Nat) : Except PyErr (List Artifact) :=
  if usernameFromUrl usernameOrUrl = "" then Except.ok []
  else scrapeGo fetch maxRepos 1 ((maxRepos + 4) / 5) []

/-- A source exposing a fixed repository list through 5-per-page pagination
(page `p` holds elements `5*(p-1) … 5*(p-1)+4`), as the GitHub list API
does. -/
def chunkFetch (repos : List RepoMeta) : Nat → PageFetch :=
  fun page => PageFetch.pageOk ((repos.drop (5 * (page - 1))).take 5)

/-- A distinct repository record for concrete pagination scenarios. -/
def dummyRepo (i : Nat) : RepoMeta :=
  { htmlUrl := some ("https://github.com/alice/r" ++ toString i)
  , name := some ("r" ++ toString i), stars := i }

/-- A value yielded by iterating the parsed model reply in
`_select_repos_with_llm`: a Python string or something else. -/
inductive PyVal where
  | str (s : String)
  | other
deriving DecidableEq, Repr

/-- Outcome of the Bedrock call + JSON parse inside the `try` block of
`_select_repos_with_llm`: any raised exception (call failure, parse failure,
non-iterable reply) lands in `callFailure`; otherwise iterating the parsed
value yields a list of Python values. -/
inductive LlmReply where
  | callFailure
  | items (vals : List PyVal)
deriving Repr

/-- `process_content._select_repos_with_llm`: empty input short-circuits to
`[]`; a failed call falls back to the first `maxPick` input URLs; otherwise
returned values are kept only if they are strings present in the input list,
then truncated to `maxPick`. -/
def select_repos_with_llm (reply : LlmReply) (repoUrls : List String)
    (maxPick : Nat) : List String :=
  if repoUrls = [] then []
  else
    match reply with
    | LlmReply.callFailure => repoUrls.take maxPick
    | LlmReply.items vals =>
        (vals.filterMap fun v =>
          match v with
          | PyVal.str s => if s ∈ repoUrls then some s else none
          | PyVal.other => none).take maxPick

/-- Python whitespace as recognised by `str.strip` (ASCII range). -/
def isPySpace (c : Char) : Bool :=
  (c == ' ') || (c == '\t') || (c == '\n') || (c == '\r') || (c == '\x0b') || (c == '\x0c')

/-- `str.strip()` on a character list. -/
def pyStripChars (l : List Char) : List Char :=
  ((l.dropWhile isPySpace).reverse.dropWhile isPySpace).reverse

/-- `str.strip()`. -/
def pyStrip (s : String) : String := String.mk (pyStripChars s.data)

/-- The hard-coded fallback skill map of `extract_skills_from_jd`. -/
def fallbackSkills : List (String × List String) :=
  [ ("Python", ["python", "pandas", "numpy", "fastapi", "django"])
  , ("Cloud", ["aws", "azure", "gcp", "kubernetes", "docker", "terraform"])
  , ("Data", ["sql", "postgres", "snowflake", "spark", "etl"]) ]

/-- Outcome of the Bedrock call + JSON parse inside
`extract_skills_from_jd`: `failure` for any raised exception, otherwise the
parsed object's items, each value tagged `some` when it is a Python list
(of already-`str()`-coerced entries) and `none` otherwise. -/
inductive SkillsReply where
  | failure
  | ok (data : List (String × Option (List String)))
deriving Repr

/-- `process_content.extract_skills_from_jd`: on success, keep only items
whose value is a list, strip the skill name, strip each keyword and drop
keywords that are empty after stripping; on any failure return the fixed
fallback skill map. -/
def extract_skills_from_jd (reply : SkillsReply) : List (String × List String) :=
  match reply with
  | SkillsReply.failure => fallbackSkills
  | SkillsReply.ok data =>
      data.filterMap fun p =>
        match p.2 with
        | none => none
        | some kws => some (pyStrip p.1, (kws.map pyStrip).filter (fun k => k != ""))

/-- Outcome of the Bedrock call + JSON parse inside
`resume_agent.generate_final_brief`: `failure` covers both a failed
`invoke_model` call and a reply that does not parse as JSON. -/
inductive BriefReply (α : Type) where
  | failure
  | ok (result : α)

/-- `resume_agent.generate_final_brief` error behaviour: the `except` block
only logs and re-raises, so a malformed or failing model reply produces no
result and the error propagates to the handler. -/
def generate_final_brief {α : Type} (reply : BriefReply α) : Except PyErr α :=
  match reply with
  | BriefReply.failure => Except.error PyErr.bedrockError
  | BriefReply.ok r => Except.ok r

/-- Recursion core of Python `str.count` with explicit fuel (the fuel is
always instantiated with the haystack length, which bounds the number of
scanning steps). -/
def pyCountFuel (n : List Char) : Nat → List Char → Nat
  | 0, _ => 0
  | _ + 1, [] => 0
  | fuel + 1, c :: t =>
    if n ≠ [] ∧ n.isPrefixOf (c :: t) then 1 + pyCountFuel n fuel ((c :: t).drop n.length)
    else pyCountFuel n fuel t

/-- Python `str.count(sub)` for a non-empty `sub`: the number of
non-overlapping occurrences, scanning left to right.  (The source only
calls it under an `if kw:` guard, so the empty-needle case never arises;
this embedding returns 0 there.) -/
def pyCount (n h : List Char) : Nat :=
  pyCountFuel n h.length h

/-- `str.lower()` (ASCII case folding, which covers every string the
heuristics claims quantify over). -/
def toLowerStr (s : String) : String := String.mk (s.data.map Char.toLower)

/-- The corpus built by `calculate_heuristics`: lower-cased résumé text,
then `" " + title.lower()` for every artifact with a non-empty title, then
`" " + blob.lower()` for every non-empty extra corpus. -/
def heurCorpus (resumeText : String) (artifacts : List Artifact)
    (extraCorpora : List String) : String :=
  let c0 := toLowerStr resumeText
  let c1 := artifacts.foldl
    (fun acc a =>
      match a.title with
      | some t => if t ≠ "" then acc ++ " " ++ toLowerStr t else acc
      | none => acc) c0
  extraCorpora.foldl
    (fun acc blob => if blob ≠ "" then acc ++ " " ++ toLowerStr blob else acc) c1

/-- The per-skill score of `calculate_heuristics`: starting from 0, add
`corpus.count(kw.lower())` for every non-empty keyword of the skill. -/
def skillScore (corpus : String) (keywords : List String) : Nat :=
  keywords.foldl
    (fun acc kw => if kw ≠ "" then acc + pyCount (toLowerStr kw).data corpus.data else acc) 0

/-- `process_content.calculate_heuristics`, returning the `skill_counts`
mapping (the skill map dict is represented as a list of key/value pairs with
distinct keys, in iteration order). -/
def calculate_heuristics (resumeText : String) (artifacts : List Artifact)
    (skillMap : List (String × List String)) (extraCorpora : List String) :
    List (String × Nat) :=
  let corpus := heurCorpus resumeText artifacts extraCorpora
  skillMap.map fun p => (p.1, skillScore corpus p.2)

/-- Characters stripped from the tail by `re.sub(r'[)\]\s>]+$', "", url)`. -/
def isTrailJunk (c : Char) : Bool :=
  (c == ')') || (c == ']') || (c == '>') || isPySpace c

/-- Apply the trailing-junk removal. -/
def stripTrailJunk (l : List Char) : List Char :=
  (l.reverse.dropWhile isTrailJunk).reverse

/-- `needle in haystack` for Python strings (contiguous substring test). -/
def listContainsSub (needle : List Char) : List Char → Bool
  | [] => needle.isEmpty
  | c :: t => needle.isPrefixOf (c :: t) || listContainsSub needle t

/-- Remove a literal leading fragment, or fail. -/
def dropStart (p l : List Char) : Option (List Char) :=
  if p.isPrefixOf l then some (l.drop p.length) else none

/-- The character class `[A-Za-z0-9-]` of the profile regex. -/
def isUserChar (c : Char) : Bool := c.isAlpha || c.isDigit || (c == '-')

/-- Consume an optional literal fragment (`(?:...)?` of the regex): remove
it when present, otherwise keep the input.  (No backtracking is needed for
the two uses `s?` and `(?:www\.)?`: whenever the fragment is present the
regex can only proceed by consuming it, since the following literal never
starts with the fragment.) -/
def optDrop (p l : List Char) : List Char :=
  match dropStart p l with
  | some x => x
  | none => l

/-- The tail of the profile regex after `github.com/`: capture the longest
non-empty run of `[A-Za-z0-9-]`, which must be followed by `/` or the end of
the string.  (Greedy matching coincides with the regex here: a shorter
capture is always followed by another user character, never by `/` or the
end.) -/
def matchTail (l5 : List Char) : Option (List Char) :=
  let user := l5.takeWhile isUserChar
  if user.isEmpty then none
  else
    match l5.drop user.length with
    | [] => some user
    | c :: _ => if c == '/' then some user else none

/-- The anchored regex `https?://(?:www\.)?github\.com/([A-Za-z0-9-]+)(?:/|$)`
of `parse_resume._clean_github_profile`, as a deterministic matcher: literal
`http`, optional `s`, literal `://`, optional `www.`, literal `github.com/`,
then the captured first path segment. -/
def matchGithubProfile (l : List Char) : Option (List Char) :=
  match dropStart "http".data l with
  | none => none
  | some l1 =>
    match dropStart "://".data (optDrop "s".data l1) with
    | none => none
    | some l3 =>
      match dropStart "github.com/".data (optDrop "www.".data l3) with
      | none => none
      | some l5 => matchTail l5

/-- `parse_resume._clean_github_profile`: `None` unless `"github.com"`
occurs in the raw input; otherwise `strip()` the input, drop trailing
`)`/`]`/`>`/whitespace, match the anchored profile regex and rebuild
`https://github.com/<username>` from the captured first path segment. -/
def clean_github_profile (url : String) : Option String :=
  if listContainsSub "github.com".data url.data then
    match matchGithubProfile (stripTrailJunk (pyStripChars url.data)) with
    | none => none
    | some user => some ("https://github.com/" ++ String.mk user)
  else none

/-- A row of the `candidates` table (consumed columns only). -/
structure CandidateRow where
  id : Nat
  userId : Nat
  s3ResumePath : Option String
deriving DecidableEq, Repr

/-- A row of the `jobs` table (consumed columns only). -/
structure JobRow where
  id : Nat
  userId : Nat
  s3JdPath : Option String
deriving DecidableEq, Repr

/-- The relational tables touched by `api.delete_brief`. -/
structure DbState where
  users : List UserRow
  briefs : List BriefRow
  candidates : List CandidateRow
  jobs : List JobRow
deriving DecidableEq, Repr

/-- `status.upper() in ("DONE", "FAILED", "CANCELLED")` (statuses are stored
upper-case, so `.upper()` is the identity on the modelled enum). -/
def isTerminal (s : BriefStatus) : Bool :=
  s == BriefStatus.DONE || s == BriefStatus.FAILED || s == BriefStatus.CANCELLED

/-- The SELECT of `api.delete_brief`: the first row of
`briefs ⋈ candidates ⋈ jobs ⋈ users` with `briefs.id = bid` and
`users.cognito_id = sub`. -/
def findJoin (db : DbState) (sub : String) (bid : Nat) :
    Option (BriefRow × CandidateRow × JobRow) :=
  db.briefs.findSome? fun b =>
    if b.id = bid then
      match db.candidates.find? (fun c => c.id == b.candidateId),
            db.jobs.find? (fun j => j.id == b.jobId),
            db.users.find? (fun u => u.id == b.userId && u.cognitoId == sub) with
      | some c, some j, some _ => some (b, c, j)
      | _, _, _ => none
    else none

/-- Best-effort S3 cleanup: delete each key in order, but a key in `failSet`
raises inside `delete_object` and is only logged, leaving the store
untouched for that key. -/
def deleteS3Keys (store failSet keys : List String) : List String :=
  keys.foldl (fun st k => if k ∈ failSet then st else st.filter (fun x => x != k)) store

/-- `api.delete_brief` (ownership assumed checked through the join): run the
stale-expiry sweep scoped to the brief, re-read the joined row (404 when
absent), answer 409 when the status is not terminal, otherwise best-effort
delete the three S3 objects and delete the brief, candidate and job rows. -/
def delete_brief (sub : String) (bid : Nat) (now : Int) (s3Fail : List String)
    (db : DbState) (s3 : List String) : ApiResp × DbState × List String :=
  let briefs1 := expireStalePending now 5 (some bid) db.briefs
  let db1 : DbState := { db with briefs := briefs1 }
  match findJoin db1 sub bid with
  | none => (⟨404⟩, db1, s3)
  | some (b, c, j) =>
    if isTerminal b.status then
      let keys := [c.s3ResumePath, j.s3JdPath, b.s3OutputPath].filterMap id
      (⟨200⟩,
        { db1 with
          briefs := briefs1.filter (fun x => x.id != bid)
          , candidates := db1.candidates.filter (fun x => x.id != c.id)
          , jobs := db1.jobs.filter (fun x => x.id != j.id) },
        deleteS3Keys s3 s3Fail keys)
    else (⟨409⟩, db1, s3)

/-- Concrete database used as counterexample input for deletion: one owned
brief in status PENDING, created at time 0. -/
def deleteDemoDb : DbState :=
  { users := [⟨1, "sub-a"⟩]
  , briefs := [⟨7, 1, 2, 3, BriefStatus.PENDING, none, 0⟩]
  , candidates := [⟨2, 1, some "candidates/2/resume_original.pdf"⟩]
  , jobs := [⟨3, 1, some "jobs/3/jd.txt"⟩] }

/-- C1 (counterexample): a successful start request (202) on an owned PENDING
brief does **not** transition the status to PROCESSING — the subsequent status
read still observes PENDING, refuting the claimed PENDING→PROCESSING
transition. -/
theorem put_brief_start_no_processing :
    (put_brief_start "sub-a" 7 startDemoState).1.statusCode = 202
    ∧ ((put_brief_start "sub-a" 7 startDemoState).2.briefs.map BriefRow.status
        = [BriefStatus.PENDING])
    ∧ BriefStatus.PROCESSING ∉
        ((put_brief_start "sub-a" 7 startDemoState).2.briefs.map BriefRow.status) := by
  decide

/-- C1 (amended): a start request never modifies any brief row; on success
(202) it appends exactly one orchestrator execution for the requested brief,
and on failure it answers 404 leaving the state untouched.  The status stays
PENDING until the save-output step marks the brief DONE. -/
theorem put_brief_start_spec (sub : String) (bid : Nat) (st : ApiState) :
    (put_brief_start sub bid st).2.briefs = st.briefs
    ∧ (put_brief_start sub bid st).2.users = st.users
    ∧ ((put_brief_start sub bid st).1.statusCode = 202
        → (put_brief_start sub bid st).2.executions = st.executions ++ [bid])
    ∧ ((put_brief_start sub bid st).1.statusCode ≠ 202
        → (put_brief_start sub bid st).1.statusCode = 404
          ∧ (put_brief_start sub bid st).2 = st)
    ∧ (∀ key b, b ∈ save_output_update bid key st.briefs
        → (b.id = bid → b.status = BriefStatus.DONE)
          ∧ (b.id ≠ bid → b ∈ st.briefs)) := by
  unfold put_brief_start
  split
  · refine ⟨rfl, rfl, fun _ => rfl, fun h => absurd rfl h, ?_⟩
    intro key b hb
    unfold save_output_update at hb
    simp only [List.mem_map] at hb
    obtain ⟨b₀, hb₀, hmap⟩ := hb
    constructor
    · intro hid
      by_cases h7 : b₀.id = bid
      · simp [h7] at hmap; subst hmap; rfl
      · simp [h7] at hmap; subst hmap; exact absurd hid h7
    · intro hid
      by_cases h7 : b₀.id = bid
      · simp [h7] at hmap; subst hmap; simp at hid
      · simp [h7] at hmap; subst hmap; exact hb₀
  · refine ⟨rfl, rfl, fun h => by simp at h, fun _ => ⟨rfl, rfl⟩, ?_⟩
    intro key b hb
    unfold save_output_update at hb
    simp only [List.mem_map] at hb
    obtain ⟨b₀, hb₀, hmap⟩ := hb
    constructor
    · intro hid
      by_cases h7 : b₀.id = bid
      · simp [h7] at hmap; subst hmap; rfl
      · simp [h7] at hmap; subst hmap; exact absurd hid h7
    · intro hid
      by_cases h7 : b₀.id = bid
      · simp [h7] at hmap; subst hmap; simp at hid
      · simp [h7] at hmap; subst hmap; exact hb₀

/-- Witness for `put_brief_start_spec` at a concrete state: the implications
are discharged on the demo state, showing the 202 path records exactly one
execution. -/
theorem put_brief_start_spec_witness :
    (put_brief_start "sub-a" 7 startDemoState).2.executions = [7] := by
  have h := put_brief_start_spec "sub-a" 7 startDemoState
  have h202 : (put_brief_start "sub-a" 7 startDemoState).1.statusCode = 202 := by decide
  simpa using h.2.2.1 h202

/-- C5: the stale-expiry sweep sets a row's status to FAILED iff the row is
PENDING, was created more than `60*minutes` seconds before `now` (at the
5-minute default, more than 300 s), and passes the optional brief-id filter;
otherwise the row is returned unchanged, and in every case all columns other
than `status` are preserved.  Each row of the swept table is exactly the
per-row update of the corresponding input row. -/
theorem expire_stale_pending_spec (now : Int) (bid : Option Nat) (r : BriefRow) :
    ((expireRow now 5 bid r).status = BriefStatus.FAILED ∧ expireRow now 5 bid r ≠ r
       ↔ r.status = BriefStatus.PENDING ∧ r.createdAt < now - 300 ∧ bid.getD r.id = r.id)
    ∧ (¬ (r.status = BriefStatus.PENDING ∧ r.createdAt < now - 300 ∧ bid.getD r.id = r.id)
        → expireRow now 5 bid r = r)
    ∧ (expireRow now 5 bid r).id = r.id
    ∧ (expireRow now 5 bid r).userId = r.userId
    ∧ (expireRow now 5 bid r).candidateId = r.candidateId
    ∧ (expireRow now 5 bid r).jobId = r.jobId
    ∧ (expireRow now 5 bid r).s3OutputPath = r.s3OutputPath
    ∧ (expireRow now 5 bid r).createdAt = r.createdAt
    ∧ (∀ briefs : List BriefRow, r ∈ briefs → expireRow now 5 bid r ∈ expireStalePending now 5 bid briefs) := by
  have h300 : now - 60 * 5 = now - 300 := by norm_num
  have hmem : ∀ briefs : List BriefRow, r ∈ briefs
      → expireRow now 5 bid r ∈ expireStalePending now 5 bid briefs :=
    fun _ hr => List.mem_map_of_mem _ hr
  by_cases hc : expireCond now 5 bid r
  · have hc' := hc
    unfold expireCond at hc'
    rw [h300] at hc'
    refine ⟨⟨fun _ => hc', fun _ => ?_⟩, fun h => absurd hc' h, ?_, ?_, ?_, ?_, ?_, ?_, hmem⟩
    · constructor
      · simp [expireRow, hc]
      · simp only [expireRow, if_pos hc]
        intro heq
        have := congrArg BriefRow.status heq
        simp at this
        rw [← this] at hc'
        exact absurd hc'.1 (by simp)
    all_goals simp [expireRow, hc]
  · have hc' : ¬ (r.status = BriefStatus.PENDING ∧ r.createdAt < now - 300 ∧ bid.getD r.id = r.id) := by
      intro h
      exact hc (by unfold expireCond; rw [h300]; exact h)
    refine ⟨⟨fun h => absurd h.2 (by simp [expireRow, hc]), fun h => absurd h hc'⟩,
      fun _ => by simp [expireRow, hc], ?_, ?_, ?_, ?_, ?_, ?_, hmem⟩
    all_goals simp [expireRow, hc]

/-- Witness for `expire_stale_pending_spec`: a PENDING brief created at time 0
swept at time 301 (more than 5 minutes later) comes out FAILED, and a brief
created at time 2 (only 299 s old) is untouched. -/
theorem expire_stale_pending_spec_witness :
    (expireRow 301 5 none ⟨7, 1, 2, 3, BriefStatus.PENDING, none, 0⟩).status = BriefStatus.FAILED
    ∧ expireRow 301 5 none ⟨7, 1, 2, 3, BriefStatus.PENDING, none, 2⟩
        = ⟨7, 1, 2, 3, BriefStatus.PENDING, none, 2⟩ := by
  refine ⟨((expire_stale_pending_spec 301 none ⟨7, 1, 2, 3, BriefStatus.PENDING, none, 0⟩).1.mpr
      (by decide)).1, ?_⟩
  exact (expire_stale_pending_spec 301 none ⟨7, 1, 2, 3, BriefStatus.PENDING, none, 2⟩).2.1
    (by decide)

/-- One rate-limited iteration of `_req_with_retries`: sleep the computed
wait, keep the backoff, and move to the next loop index. -/
theorem reqGo_rl_step (retries attempt : Nat) (backoff : ℚ) (sleeps : List ℚ)
    (r : HttpResp) (rest : List GetResult) (h : attempt < retries)
    (h403 : r.status = 403) (hrl : r.bodyRateLimit = true) :
    reqGo retries attempt backoff sleeps (GetResult.resp r :: rest)
      = reqGo retries (attempt + 1) backoff (sleeps ++ [rateWait backoff r]) rest := by
  simp only [reqGo]
  rw [if_pos h, if_pos ⟨h403, hrl⟩]

/-- Once the loop index reaches the retry count, the loop is over and the
function returns `None`, whatever requests would remain. -/
theorem reqGo_done (retries attempt : Nat) (backoff : ℚ) (sleeps : List ℚ)
    (trace : List GetResult) (h : ¬ attempt < retries) :
    reqGo retries attempt backoff sleeps trace = (ReqOutcome.noneReturn, sleeps) := by
  cases trace <;> simp [reqGo, h]

/-- C10: on an execution whose 4 loop iterations all take the rate-limit
branch, `_req_with_retries` falls off its loop and returns `None` (after the
4 computed sleeps), and the callers then crash: `_get_default_branch`
invokes `.json()` on `None` (AttributeError), and a page fetch of
`scrape_github_profile` whose wrapper returned `None` raises the same
uncaught AttributeError out of the whole scrape. -/
theorem req_with_retries_returns_none :
    (reqWithRetries rlTrace).1 = ReqOutcome.noneReturn
    ∧ (reqWithRetries rlTrace).2 = [50, 50, 50, 50]
    ∧ (∀ branchOf, getDefaultBranch rlTrace branchOf = Except.error PyErr.attributeError)
    ∧ scrape_github_profile "alice" (fun _ => PageFetch.wrapperNone) 10
        = Except.error PyErr.attributeError := by
  have h : (reqWithRetries rlTrace).1 = ReqOutcome.noneReturn := by decide
  refine ⟨h, by decide, fun branchOf => ?_, ?_⟩
  · unfold getDefaultBranch
    rw [h]
  · unfold scrape_github_profile
    rw [if_neg (by decide : ¬ usernameFromUrl "alice" = "")]
    simp [scrapeGo]

/-- C2 (counterexample): with 4 rate-limited responses followed by a 200
response, `_req_with_retries` returns `None` without ever issuing the fifth
request — each rate-limited retry consumed one of the 4 loop attempts, so
the rate-limit branch is *not* free of the attempt budget as claimed. -/
theorem rate_limit_consumes_budget :
    (reqWithRetries (rlTrace ++ [GetResult.resp ⟨200, false, none, 0⟩])).1
      = ReqOutcome.noneReturn
    ∧ (reqWithRetries (rlTrace ++ [GetResult.resp ⟨200, false, none, 0⟩])).2
      = [50, 50, 50, 50] := by
  decide

/-- C2 (amended): a 403 rate-limited response sleeps
`max(1, reset - now)` (or `ceil(backoff)` without the header) and retries
with the backoff unchanged, but **does** advance the 4-iteration loop index;
a client/network error — a raised `requests.RequestException` or a
non-rate-limited 4xx/5xx response failing `raise_for_status` — before the
last iteration sleeps the backoff and doubles it; such an error on the last
iteration re-raises; and an execution whose 4 iterations are all
rate-limited ends with the function returning `None` rather than retrying
further. -/
theorem req_with_retries_spec (attempt : Nat) (backoff : ℚ) (r : HttpResp)
    (rest : List GetResult) (sleeps : List ℚ) :
    (attempt < 4 → r.status = 403 → r.bodyRateLimit = true →
      reqGo 4 attempt backoff sleeps (GetResult.resp r :: rest)
        = reqGo 4 (attempt + 1) backoff (sleeps ++ [rateWait backoff r]) rest)
    ∧ (∀ t, r.reset = some t →
        rateWait backoff r = max 1 (((t - r.now : Int) : ℚ)) ∧ 1 ≤ rateWait backoff r)
    ∧ (attempt < 3 →
      reqGo 4 attempt backoff sleeps (GetResult.netErr :: rest)
        = reqGo 4 (attempt + 1) (backoff * 2) (sleeps ++ [backoff]) rest)
    ∧ reqGo 4 3 backoff sleeps (GetResult.netErr :: rest) = (ReqOutcome.raised, sleeps)
    ∧ (attempt < 3 → 400 ≤ r.status ∧ r.status < 600
        → ¬ (r.status = 403 ∧ r.bodyRateLimit = true) →
      reqGo 4 attempt backoff sleeps (GetResult.resp r :: rest)
        = reqGo 4 (attempt + 1) (backoff * 2) (sleeps ++ [backoff]) rest)
    ∧ (400 ≤ r.status ∧ r.status < 600 → ¬ (r.status = 403 ∧ r.bodyRateLimit = true) →
      reqGo 4 3 backoff sleeps (GetResult.resp r :: rest) = (ReqOutcome.raised, sleeps))
    ∧ (∀ e₁ e₂ e₃ e₄ rest', IsRateLimited e₁ → IsRateLimited e₂ → IsRateLimited e₃ →
        IsRateLimited e₄ →
        (reqWithRetries (e₁ :: e₂ :: e₃ :: e₄ :: rest')).1 = ReqOutcome.noneReturn) := by
  refine ⟨fun h h403 hrl => reqGo_rl_step 4 attempt backoff sleeps r rest h h403 hrl,
    ?_, ?_, ?_, ?_, ?_, ?_⟩
  · intro t ht
    unfold rateWait
    rw [ht]
    exact ⟨rfl, le_max_left 1 _⟩
  · intro h
    simp only [reqGo]
    rw [if_pos (by omega : attempt < 4), if_neg (by omega : ¬ attempt = 4 - 1)]
  · simp [reqGo]
  · intro h herr hnotrl
    simp only [reqGo]
    rw [if_pos (by omega : attempt < 4), if_neg hnotrl, if_pos herr,
      if_neg (by omega : ¬ attempt = 4 - 1)]
  · intro herr hnotrl
    simp only [reqGo]
    rw [if_pos (by norm_num : (3 : Nat) < 4), if_neg hnotrl, if_pos herr]
    simp
  · intro e₁ e₂ e₃ e₄ rest' h1 h2 h3 h4
    obtain ⟨r1, rfl, hs1, hb1⟩ := h1
    obtain ⟨r2, rfl, hs2, hb2⟩ := h2
    obtain ⟨r3, rfl, hs3, hb3⟩ := h3
    obtain ⟨r4, rfl, hs4, hb4⟩ := h4
    unfold reqWithRetries
    rw [reqGo_rl_step 4 0 _ _ _ _ (by norm_num) hs1 hb1,
      reqGo_rl_step 4 1 _ _ _ _ (by norm_num) hs2 hb2,
      reqGo_rl_step 4 2 _ _ _ _ (by norm_num) hs3 hb3,
      reqGo_rl_step 4 3 _ _ _ _ (by norm_num) hs4 hb4,
      reqGo_done 4 4 _ _ _ (by norm_num)]

/-- Witness for `req_with_retries_spec` on concrete responses at loop
index 0 and 3: the rate-limit step equation holds with computed sleep 50 s,
a 500 response steps with the backoff slept and doubled, a 500 response on
the last iteration raises, and the all-rate-limited trace yields `None`. -/
theorem req_with_retries_spec_witness :
    reqGo 4 0 (1 / 2) [] [GetResult.resp ⟨403, true, some 100, 50⟩]
      = reqGo 4 1 (1 / 2) [rateWait (1 / 2) ⟨403, true, some 100, 50⟩] []
    ∧ rateWait (1 / 2) ⟨403, true, some 100, 50⟩ = 50
    ∧ reqGo 4 0 (1 / 2) [] [GetResult.resp ⟨500, false, none, 0⟩]
        = reqGo 4 1 (1 / 2 * 2) [1 / 2] []
    ∧ reqGo 4 3 (1 / 2) [] [GetResult.resp ⟨500, false, none, 0⟩]
        = (ReqOutcome.raised, [])
    ∧ (reqWithRetries rlTrace).1 = ReqOutcome.noneReturn := by
  have h := req_with_retries_spec 0 (1 / 2) ⟨403, true, some 100, 50⟩ [] []
  have h500 := req_with_retries_spec 0 (1 / 2) ⟨500, false, none, 0⟩ [] []
  have h500' := req_with_retries_spec 3 (1 / 2) ⟨500, false, none, 0⟩ [] []
  refine ⟨h.1 (by norm_num) rfl rfl, ?_, ?_, ?_, ?_⟩
  · rw [(h.2.1 100 rfl).1]
    norm_num
  · simpa using h500.2.2.2.2.1 (by norm_num) (by norm_num) (by simp)
  · exact h500'.2.2.2.2.2.1 (by norm_num) (by simp)
  · exact h.2.2.2.2.2.2 rlResp rlResp rlResp rlResp []
      ⟨_, rfl, rfl, rfl⟩ ⟨_, rfl, rfl, rfl⟩ ⟨_, rfl, rfl, rfl⟩ ⟨_, rfl, rfl, rfl⟩

/-- C3: repository selection never fails and always returns a subset of the
input URLs of size at most 3 (`max_pick`): non-string or unknown values of
the model reply are discarded, the survivors are truncated to 3, and any
failure falls back to the first 3 input URLs. -/
theorem select_repos_spec (reply : LlmReply) (repoUrls : List String) :
    (∀ u ∈ select_repos_with_llm reply repoUrls 3, u ∈ repoUrls)
    ∧ (select_repos_with_llm reply repoUrls 3).length ≤ 3
    ∧ select_repos_with_llm LlmReply.callFailure repoUrls 3 = repoUrls.take 3 := by
  refine ⟨?_, ?_, ?_⟩
  · intro u hu
    unfold select_repos_with_llm at hu
    by_cases hempty : repoUrls = []
    · rw [if_pos hempty] at hu
      exact absurd hu (List.not_mem_nil u)
    · rw [if_neg hempty] at hu
      cases reply with
      | callFailure => exact List.take_subset 3 repoUrls hu
      | items vals =>
        have hu' := List.take_subset 3 _ hu
        obtain ⟨v, _, hv⟩ := List.mem_filterMap.mp hu'
        cases v with
        | str s =>
          by_cases hs : s ∈ repoUrls
          · simp only [if_pos hs, Option.some.injEq] at hv
            exact hv ▸ hs
          · simp [if_neg hs] at hv
        | other => simp at hv
  · unfold select_repos_with_llm
    by_cases hempty : repoUrls = []
    · simp [hempty]
    · rw [if_neg hempty]
      cases reply with
      | callFailure => exact List.length_take_le 3 repoUrls
      | items vals => exact List.length_take_le 3 _
  · unfold select_repos_with_llm
    by_cases hempty : repoUrls = [] <;> simp [hempty]

/-- Witness for `select_repos_spec`: on a concrete reply holding one known
URL and one non-string value, the selected URL is indeed a member of the
input list. -/
theorem select_repos_spec_witness :
    "https://github.com/a/r1" ∈ ["https://github.com/a/r1", "https://github.com/a/r2"] := by
  have h := select_repos_spec
    (LlmReply.items [PyVal.str "https://github.com/a/r1", PyVal.other])
    ["https://github.com/a/r1", "https://github.com/a/r2"]
  exact h.1 "https://github.com/a/r1" (by decide)

/-- C4: a malformed or failing model reply is non-fatal for skill extraction
(fixed fallback skill map) and for repo selection (first-3 fallback), but
fatal for the final synthesis, which re-raises and produces no result. -/
theorem malformed_output_fatality (α : Type) (repoUrls : List String) (result : α) :
    extract_skills_from_jd SkillsReply.failure = fallbackSkills
    ∧ select_repos_with_llm LlmReply.callFailure repoUrls 3 = repoUrls.take 3
    ∧ generate_final_brief (BriefReply.failure : BriefReply α)
        = Except.error PyErr.bedrockError
    ∧ generate_final_brief (BriefReply.failure : BriefReply α) ≠ Except.ok result := by
  refine ⟨rfl, ?_, rfl, by simp [generate_final_brief]⟩
  unfold select_repos_with_llm
  by_cases hempty : repoUrls = [] <;> simp [hempty]

/-- The folded per-skill accumulation equals the mathematical sum of the
per-keyword occurrence counts (empty keywords contributing 0). -/
theorem skillScore_eq_sum (corpus : String) (kws : List String) :
    skillScore corpus kws
      = (kws.map (fun kw =>
          if kw = "" then 0 else pyCount (toLowerStr kw).data corpus.data)).sum := by
  unfold skillScore
  have hgen : ∀ (l : List String) (a : Nat),
      l.foldl (fun acc kw =>
        if kw ≠ "" then acc + pyCount (toLowerStr kw).data corpus.data else acc) a
        = a + (l.map (fun kw =>
            if kw = "" then 0 else pyCount (toLowerStr kw).data corpus.data)).sum := by
    intro l
    induction l with
    | nil => intro a; simp
    | cons x xs ih =>
      intro a
      rw [List.foldl_cons, List.map_cons, List.sum_cons]
      by_cases hx : x = ""
      · rw [if_neg (fun hcon => hcon hx), if_pos hx, ih a]
        omega
      · rw [if_pos hx, if_neg hx, ih]
        omega
  simpa using hgen kws 0

/-- C9: the heuristic scorer is pure and deterministic; its result has
exactly the skill map's keys, and each skill's count is the sum, over the
skill's keywords, of the non-overlapping occurrence counts of the
lower-cased keyword in the lower-cased concatenated corpus (résumé text,
artifact titles, bundle texts). -/
theorem calculate_heuristics_spec (resumeText resumeText' : String)
    (artifacts artifacts' : List Artifact) (skillMap : List (String × List String))
    (extra extra' : List String) :
    (calculate_heuristics resumeText artifacts skillMap extra).map Prod.fst
      = skillMap.map Prod.fst
    ∧ (∀ p ∈ skillMap,
        (p.1, (p.2.map (fun kw =>
            if kw = "" then 0
            else pyCount (toLowerStr kw).data (heurCorpus resumeText artifacts extra).data)).sum)
          ∈ calculate_heuristics resumeText artifacts skillMap extra)
    ∧ (resumeText = resumeText' → artifacts = artifacts' → extra = extra' →
        calculate_heuristics resumeText artifacts skillMap extra
          = calculate_heuristics resumeText' artifacts' skillMap extra') := by
  refine ⟨?_, ?_, ?_⟩
  · unfold calculate_heuristics
    rw [List.map_map]
    rfl
  · intro p hp
    simp only [calculate_heuristics]
    rw [← skillScore_eq_sum]
    exact List.mem_map_of_mem _ hp
  · rintro rfl rfl rfl
    rfl

/-- Witness for `calculate_heuristics_spec`: "python" occurs twice in the
lower-cased corpus of the résumé "I use Python and python-requests", so the
skill "Python" scores 2. -/
theorem calculate_heuristics_spec_witness :
    ("Python", 2) ∈ calculate_heuristics "I use Python and python-requests" []
      [("Python", ["python"])] [] := by
  have h := calculate_heuristics_spec "I use Python and python-requests"
    "I use Python and python-requests" [] [] [("Python", ["python"])] [] []
  have hm := h.2.1 ("Python", ["python"]) (by decide)
  have hval : ((["python"].map (fun kw =>
      if kw = "" then 0
      else pyCount (toLowerStr kw).data (heurCorpus "I use Python and python-requests" [] []).data)).sum) = 2 := by
    decide
  rw [hval] at hm
  exact hm

/-- The page loop never accumulates beyond the cap. -/
theorem scrapeGo_length_le (fetch : Nat → PageFetch) (m : Nat) :
    ∀ (pl page : Nat) (acc : List Artifact), acc.length ≤ m →
      ∀ l, scrapeGo fetch m page pl acc = Except.ok l → l.length ≤ m := by
  intro pl
  induction pl with
  | zero =>
    intro page acc hacc l h
    simp only [scrapeGo, Except.ok.injEq] at h
    exact h ▸ hacc
  | succ n ih =>
    intro page acc hacc l h
    cases hf : fetch page with
    | reqErr =>
      simp only [scrapeGo, hf, Except.ok.injEq] at h
      exact h ▸ hacc
    | wrapperNone =>
      simp only [scrapeGo, hf] at h
      exact absurd h (by simp)
    | pageOk repos =>
      simp only [scrapeGo, hf] at h
      set A := acc ++ (repos.take (m - acc.length)).map repoToArtifact with hA
      have hlenA : A.length ≤ m := by
        rw [hA]
        simp only [List.length_append, List.length_map, List.length_take]
        omega
      by_cases hbr : m ≤ A.length ∨ repos = []
      · rw [if_pos hbr] at h
        simp only [Except.ok.injEq] at h
        exact h ▸ hlenA
      · rw [if_neg hbr] at h
        exact ih (page + 1) A hlenA l h

/-- Over a chunked source (5 repos per page), the loop collects exactly the
remaining repositories whenever they fit under the cap and the page budget
covers them. -/
theorem scrapeGo_chunked (fetch : Nat → PageFetch) (m : Nat) :
    ∀ (pl page : Nat) (acc : List Artifact) (R : List RepoMeta),
      (∀ i, fetch (page + i) = PageFetch.pageOk ((R.drop (5 * i)).take 5)) →
      acc.length + R.length ≤ m → R.length ≤ 5 * pl →
      scrapeGo fetch m page pl acc = Except.ok (acc ++ R.map repoToArtifact) := by
  intro pl
  induction pl with
  | zero =>
    intro page acc R _ _ hbud
    have hR : R = [] := List.length_eq_zero.mp (by omega)
    subst hR
    simp [scrapeGo]
  | succ n ih =>
    intro page acc R hf hlen hbud
    have hf0 := hf 0
    simp only [Nat.add_zero, Nat.mul_zero, List.drop_zero] at hf0
    simp only [scrapeGo, hf0]
    have htake : (R.take 5).take (m - acc.length) = R.take 5 := by
      apply List.take_of_length_le
      have := List.length_take_le' 5 R
      omega
    rw [htake]
    by_cases hbr : m ≤ (acc ++ (R.take 5).map repoToArtifact).length ∨ R.take 5 = []
    · rw [if_pos hbr]
      have hR5 : R.take 5 = R := by
        rcases hbr with hle | hnil
        · simp only [List.length_append, List.length_map, List.length_take] at hle
          apply List.take_of_length_le
          omega
        · rcases List.take_eq_nil_iff.mp hnil with h5 | hRnil
          · exact absurd h5 (by norm_num)
          · rw [hRnil]
            simp
      rw [hR5]
    · rw [if_neg hbr]
      have hrec := ih (page + 1) (acc ++ (R.take 5).map repoToArtifact) (R.drop 5) ?_ ?_ ?_
      · rw [hrec, List.append_assoc, ← List.map_append, List.take_append_drop]
      · intro i
        have hstep := hf (i + 1)
        have harg : page + 1 + i = page + (i + 1) := by omega
        rw [harg, hstep, List.drop_drop]
        have harg2 : 5 + 5 * i = 5 * (i + 1) := by ring
        rw [harg2]
      · simp only [List.length_append, List.length_map, List.length_take, List.length_drop]
        omega
      · simp only [List.length_drop]
        omega

/-- C8: profile scraping (page size 5) never returns more than the cap; a
source of 15 repositories with cap 12 yields exactly the first 12 artifacts;
and a source holding fewer repositories than the cap yields all of them. -/
theorem scrape_pagination_spec :
    (∀ (u : String) (fetch : Nat → PageFetch) (m : Nat) (l : List Artifact),
        scrape_github_profile u fetch m = Except.ok l → l.length ≤ m)
    ∧ ((scrape_github_profile "alice" (chunkFetch ((List.range 15).map dummyRepo)) 12).toOption.map
          List.length = some 12)
    ∧ (∀ (L : List RepoMeta) (m : Nat), L.length < m →
        scrape_github_profile "alice" (chunkFetch L) m = Except.ok (L.map repoToArtifact)) := by
  refine ⟨?_, by decide, ?_⟩
  · intro u fetch m l h
    unfold scrape_github_profile at h
    by_cases hu : usernameFromUrl u = ""
    · rw [if_pos hu] at h
      simp only [Except.ok.injEq] at h
      simp [← h]
    · rw [if_neg hu] at h
      exact scrapeGo_length_le fetch m ((m + 4) / 5) 1 [] (by simp) l h
  · intro L m hlt
    unfold scrape_github_profile
    rw [if_neg (by decide : ¬ usernameFromUrl "alice" = "")]
    have h := scrapeGo_chunked (chunkFetch L) m ((m + 4) / 5) 1 [] L ?_ ?_ ?_
    · rw [h]
      simp
    · intro i
      unfold chunkFetch
      have harg : 1 + i - 1 = i := by omega
      rw [harg]
    · simpa using Nat.le_of_lt hlt
    · omega

/-- Witness for `scrape_pagination_spec`: a source holding only 3
repositories with a cap of 10 returns all 3 of them, and a cap bound holds
at that output. -/
theorem scrape_pagination_spec_witness :
    scrape_github_profile "alice" (chunkFetch ((List.range 3).map dummyRepo)) 10
      = Except.ok (((List.range 3).map dummyRepo).map repoToArtifact)
    ∧ (((List.range 3).map dummyRepo).map repoToArtifact).length ≤ 10 := by
  have hall := scrape_pagination_spec.2.2 ((List.range 3).map dummyRepo) 10 (by decide)
  exact ⟨hall,
    scrape_pagination_spec.1 "alice" (chunkFetch ((List.range 3).map dummyRepo)) 10 _ hall⟩

/-- A successful `dropStart` splits the list after the literal fragment. -/
theorem dropStart_eq_some (p l r : List Char) (h : dropStart p l = some r) :
    l = p ++ r := by
  unfold dropStart at h
  by_cases hp : p.isPrefixOf l
  · rw [if_pos hp, Option.some.injEq] at h
    obtain ⟨t, rfl⟩ := List.isPrefixOf_iff_prefix.mp hp
    rw [← h, List.drop_left]
  · rw [if_neg hp] at h
    exact absurd h (by simp)

/-- An optional fragment splits the input: the consumed part is the
fragment or empty. -/
theorem optDrop_decomp (p l : List Char) :
    ∃ o, (o = [] ∨ o = p) ∧ l = o ++ optDrop p l := by
  unfold optDrop
  cases h : dropStart p l with
  | none => exact ⟨[], Or.inl rfl, by simp⟩
  | some x => exact ⟨p, Or.inr rfl, dropStart_eq_some p l x h⟩

/-- Splitting a list at the length of its `takeWhile` prefix restores it. -/
theorem takeWhile_append_drop_self (p : Char → Bool) (l : List Char) :
    l.takeWhile p ++ l.drop (l.takeWhile p).length = l := by
  obtain ⟨t, ht⟩ := List.takeWhile_prefix (l := l) p
  have hdt := List.drop_left (l.takeWhile p) t
  rw [ht] at hdt
  rw [hdt, ht]

/-- Structure of a successful match of the regex tail: a non-empty all-user
character capture followed by nothing or a slash. -/
theorem matchTail_eq_some (l5 user : List Char) (h : matchTail l5 = some user) :
    user ≠ [] ∧ (∀ c ∈ user, isUserChar c = true)
    ∧ ∃ rest, (rest = [] ∨ rest.head? = some '/') ∧ l5 = user ++ rest := by
  unfold matchTail at h
  dsimp only at h
  by_cases hemp : (l5.takeWhile isUserChar).isEmpty
  · rw [if_pos hemp] at h
    exact absurd h (by simp)
  · rw [if_neg hemp] at h
    have hsplit := takeWhile_append_drop_self isUserChar l5
    cases hdrop : l5.drop (l5.takeWhile isUserChar).length with
    | nil =>
      rw [hdrop] at h
      dsimp only at h
      obtain rfl : l5.takeWhile isUserChar = user := by simpa using h
      refine ⟨fun hn => hemp (by simp [hn]),
        fun c hc => List.mem_takeWhile_imp hc, [], Or.inl rfl, ?_⟩
      rw [hdrop] at hsplit
      simpa using hsplit.symm
    | cons c t =>
      rw [hdrop] at h
      dsimp only at h
      by_cases hc : (c == '/') = true
      · rw [if_pos hc] at h
        obtain rfl : l5.takeWhile isUserChar = user := by simpa using h
        refine ⟨fun hn => hemp (by simp [hn]),
          fun c' hc' => List.mem_takeWhile_imp hc', c :: t,
          Or.inr (by simp [show c = '/' by simpa using hc]), ?_⟩
        rw [hdrop] at hsplit
        exact hsplit.symm
      · rw [if_neg hc] at h
        exact absurd h (by simp)

/-- Structure of a successful profile-regex match: the cleaned input
decomposes into scheme, optional `s`, optional `www.`, the host, a non-empty
run of account characters, and a remainder that is empty or starts with a
slash. -/
theorem matchGithubProfile_eq_some (l user : List Char)
    (h : matchGithubProfile l = some user) :
    user ≠ [] ∧ (∀ c ∈ user, isUserChar c = true)
    ∧ ∃ sOpt wOpt rest,
        (sOpt = [] ∨ sOpt = ['s']) ∧ (wOpt = [] ∨ wOpt = "www.".data)
        ∧ (rest = [] ∨ rest.head? = some '/')
        ∧ l = "http".data ++ sOpt ++ "://".data ++ wOpt ++ "github.com/".data
              ++ user ++ rest := by
  unfold matchGithubProfile at h
  cases h1 : dropStart "http".data l with
  | none => rw [h1] at h; exact absurd h (by simp)
  | some l1 =>
    rw [h1] at h
    dsimp only at h
    cases h3 : dropStart "://".data (optDrop "s".data l1) with
    | none => rw [h3] at h; exact absurd h (by simp)
    | some l3 =>
      rw [h3] at h
      dsimp only at h
      cases h5 : dropStart "github.com/".data (optDrop "www.".data l3) with
      | none => rw [h5] at h; exact absurd h (by simp)
      | some l5 =>
        rw [h5] at h
        dsimp only at h
        obtain ⟨hne, hchars, rest, hrest, hl5⟩ := matchTail_eq_some l5 user h
        obtain ⟨sOpt, hsOpt, hs⟩ := optDrop_decomp "s".data l1
        obtain ⟨wOpt, hwOpt, hw⟩ := optDrop_decomp "www.".data l3
        refine ⟨hne, hchars, sOpt, wOpt, rest, hsOpt, hwOpt, hrest, ?_⟩
        rw [dropStart_eq_some _ _ _ h1, hs, dropStart_eq_some _ _ _ h3, hw,
          dropStart_eq_some _ _ _ h5, hl5]
        simp [List.append_assoc]

/-- C7: the profile-URL normalizer returns `None` for any input not
containing the hosting domain, and otherwise either `None` or the canonical
`https://github.com/<first-path-segment>` where the segment is the non-empty
run of account characters that follows the (scheme, optional www) host
prefix of the stripped input and is followed by `/` or the end; concrete
noisy inputs normalize as specified and non-profile links yield `None`. -/
theorem clean_github_profile_spec (url : String) :
    (listContainsSub "github.com".data url.data = false → clean_github_profile url = none)
    ∧ (clean_github_profile url = none
      ∨ ∃ user sOpt wOpt rest,
          user ≠ [] ∧ (∀ c ∈ user, isUserChar c = true)
          ∧ (sOpt = [] ∨ sOpt = ['s']) ∧ (wOpt = [] ∨ wOpt = "www.".data)
          ∧ (rest = [] ∨ rest.head? = some '/')
          ∧ stripTrailJunk (pyStripChars url.data)
              = "http".data ++ sOpt ++ "://".data ++ wOpt ++ "github.com/".data
                ++ user ++ rest
          ∧ clean_github_profile url = some ("https://github.com/" ++ String.mk user))
    ∧ clean_github_profile "https://github.com/VincentA004/ProofBrief) "
        = some "https://github.com/VincentA004"
    ∧ clean_github_profile " https://www.github.com/alice]" = some "https://github.com/alice"
    ∧ clean_github_profile "https://gitlab.com/alice" = none
    ∧ clean_github_profile "https://github.com/" = none := by
  refine ⟨?_, ?_, by decide, by decide, by decide, by decide⟩
  · intro hfalse
    unfold clean_github_profile
    rw [if_neg (by simp [hfalse])]
  · unfold clean_github_profile
    by_cases hc : listContainsSub "github.com".data url.data = true
    · rw [if_pos hc]
      cases hm : matchGithubProfile (stripTrailJunk (pyStripChars url.data)) with
      | none => exact Or.inl rfl
      | some user =>
        right
        obtain ⟨hne, hchars, sOpt, wOpt, rest, hs, hw, hr, hdec⟩ :=
          matchGithubProfile_eq_some _ _ hm
        exact ⟨user, sOpt, wOpt, rest, hne, hchars, hs, hw, hr, hdec, rfl⟩
    · rw [if_neg hc]
      exact Or.inl rfl

/-- Witness for `clean_github_profile_spec`: its implication yields `None`
on an input without the hosting domain. -/
theorem clean_github_profile_spec_witness :
    clean_github_profile "https://example.com/alice" = none := by
  exact (clean_github_profile_spec "https://example.com/alice").1 (by decide)

/-- A successful delete-route join returns a brief row of the table with the
requested id. -/
theorem findJoin_mem (db : DbState) (sub : String) (bid : Nat) (b : BriefRow)
    (c : CandidateRow) (j : JobRow) (h : findJoin db sub bid = some (b, c, j)) :
    b ∈ db.briefs ∧ b.id = bid := by
  unfold findJoin at h
  obtain ⟨b₀, hb₀, hf⟩ := List.exists_of_findSome?_eq_some h
  by_cases hid : b₀.id = bid
  · rw [if_pos hid] at hf
    cases hcc : db.candidates.find? (fun x => x.id == b₀.candidateId) with
    | none => rw [hcc] at hf; simp at hf
    | some c' =>
      rw [hcc] at hf
      cases hjj : db.jobs.find? (fun x => x.id == b₀.jobId) with
      | none => rw [hjj] at hf; simp at hf
      | some j' =>
        rw [hjj] at hf
        cases huu : db.users.find? (fun u => u.id == b₀.userId && u.cognitoId == sub) with
        | none => rw [huu] at hf; simp at hf
        | some u' =>
          rw [huu] at hf
          simp only [Option.some.injEq, Prod.mk.injEq] at hf
          obtain ⟨rfl, -, -⟩ := hf
          exact ⟨hb₀, hid⟩
  · rw [if_neg hid] at hf
    simp at hf

/-- When the row found by the delete route is non-terminal after the sweep,
the sweep itself was a no-op (a stale PENDING row would have come out
FAILED, i.e. terminal). -/
theorem expire_noop_of_found_nonterminal (now : Int) (sub : String) (bid : Nat)
    (db : DbState) (b : BriefRow) (c : CandidateRow) (j : JobRow)
    (hnd : (db.briefs.map BriefRow.id).Nodup)
    (hfind : findJoin { db with briefs := expireStalePending now 5 (some bid) db.briefs }
        sub bid = some (b, c, j))
    (hterm : isTerminal b.status = false) :
    expireStalePending now 5 (some bid) db.briefs = db.briefs := by
  obtain ⟨hbmem, hbid⟩ := findJoin_mem _ _ _ _ _ _ hfind
  have hidpres : ∀ x, (expireRow now 5 (some bid) x).id = x.id := by
    intro x
    unfold expireRow
    by_cases hx : expireCond now 5 (some bid) x <;> simp [hx]
  have hndmap : ((db.briefs.map (expireRow now 5 (some bid))).map BriefRow.id).Nodup := by
    rw [List.map_map]
    have hcomp : BriefRow.id ∘ expireRow now 5 (some bid) = BriefRow.id := by
      funext x
      exact hidpres x
    rw [hcomp]
    exact hnd
  unfold expireStalePending
  calc db.briefs.map (expireRow now 5 (some bid))
      = db.briefs.map id := by
        apply List.map_congr_left
        intro r hr
        by_cases hcond : expireCond now 5 (some bid) r
        · exfalso
          have hrid : r.id = bid := by
            have h2 := hcond.2.2
            simpa using h2.symm
          have himg : expireRow now 5 (some bid) r
              = { r with status := BriefStatus.FAILED } := by
            unfold expireRow
            rw [if_pos hcond]
          have himgmem : ({ r with status := BriefStatus.FAILED } : BriefRow)
              ∈ db.briefs.map (expireRow now 5 (some bid)) :=
            himg ▸ List.mem_map_of_mem _ hr
          have hbmem' : b ∈ db.briefs.map (expireRow now 5 (some bid)) := hbmem
          have heq : b = { r with status := BriefStatus.FAILED } := by
            apply List.inj_on_of_nodup_map hndmap hbmem' himgmem
            rw [hbid]
            exact hrid.symm
          rw [heq] at hterm
          simp [isTerminal] at hterm
        · unfold expireRow
          rw [if_neg hcond]
          rfl
    _ = db.briefs := List.map_id db.briefs

/-- The response and the database outcome of the delete route do not depend
on which S3 deletions fail. -/
theorem delete_brief_s3_independent (sub : String) (bid : Nat) (now : Int)
    (f f' : List String) (db : DbState) (s3 : List String) :
    (delete_brief sub bid now f db s3).1 = (delete_brief sub bid now f' db s3).1
    ∧ (delete_brief sub bid now f db s3).2.1 = (delete_brief sub bid now f' db s3).2.1 := by
  unfold delete_brief
  dsimp only
  cases h : findJoin { db with briefs := expireStalePending now 5 (some bid) db.briefs }
      sub bid with
  | none =>
    dsimp only
    exact ⟨rfl, rfl⟩
  | some bcj =>
    obtain ⟨b, c, j⟩ := bcj
    dsimp only
    by_cases ht : isTerminal b.status = true
    · rw [if_pos ht, if_pos ht]
      exact ⟨rfl, rfl⟩
    · rw [if_neg ht, if_neg ht]
      exact ⟨rfl, rfl⟩

/-- C6 (counterexample): an owned Brief whose status at the time of the
DELETE request is PENDING — a non-terminal status — but which is stale
(created more than 5 minutes before now) is **deleted** with 200 and its
brief/candidate/job rows removed, not rejected with 409, because the route
first runs the stale-expiry sweep which turns it FAILED. -/
theorem delete_brief_stale_pending_deleted :
    deleteDemoDb.briefs.map BriefRow.status = [BriefStatus.PENDING]
    ∧ (delete_brief "sub-a" 7 301 [] deleteDemoDb
        ["candidates/2/resume_original.pdf", "jobs/3/jd.txt"]).1.statusCode = 200
    ∧ (delete_brief "sub-a" 7 301 [] deleteDemoDb
        ["candidates/2/resume_original.pdf", "jobs/3/jd.txt"]).2.1.briefs = []
    ∧ (delete_brief "sub-a" 7 301 [] deleteDemoDb
        ["candidates/2/resume_original.pdf", "jobs/3/jd.txt"]).2.1.candidates = []
    ∧ (delete_brief "sub-a" 7 301 [] deleteDemoDb
        ["candidates/2/resume_original.pdf", "jobs/3/jd.txt"]).2.1.jobs = [] := by
  decide

/-- C6 (amended): with unique brief ids, when the joined row's status
*after the scoped stale-expiry correction* is non-terminal the delete
answers 409 and leaves the briefs, candidates and jobs tables (and the
store) exactly as they were before the request; when it is terminal the
delete answers 200 and removes the brief, its candidate and its job while
keeping every other brief; and the response and database outcome never
depend on which S3 deletions fail. -/
theorem delete_brief_spec (sub : String) (bid : Nat) (now : Int)
    (s3Fail : List String) (db : DbState) (s3 : List String)
    (b : BriefRow) (c : CandidateRow) (j : JobRow)
    (hnd : (db.briefs.map BriefRow.id).Nodup)
    (hfind : findJoin { db with briefs := expireStalePending now 5 (some bid) db.briefs }
        sub bid = some (b, c, j)) :
    (isTerminal b.status = false →
      (delete_brief sub bid now s3Fail db s3).1.statusCode = 409
      ∧ (delete_brief sub bid now s3Fail db s3).2.1 = db
      ∧ (delete_brief sub bid now s3Fail db s3).2.2 = s3)
    ∧ (isTerminal b.status = true →
      (delete_brief sub bid now s3Fail db s3).1.statusCode = 200
      ∧ (∀ b' ∈ (delete_brief sub bid now s3Fail db s3).2.1.briefs, b'.id ≠ bid)
      ∧ (∀ c' ∈ (delete_brief sub bid now s3Fail db s3).2.1.candidates, c'.id ≠ c.id)
      ∧ (∀ j' ∈ (delete_brief sub bid now s3Fail db s3).2.1.jobs, j'.id ≠ j.id)
      ∧ (∀ b' ∈ expireStalePending now 5 (some bid) db.briefs,
          b'.id ≠ bid → b' ∈ (delete_brief sub bid now s3Fail db s3).2.1.briefs))
    ∧ (∀ f', (delete_brief sub bid now f' db s3).1 = (delete_brief sub bid now s3Fail db s3).1
        ∧ (delete_brief sub bid now f' db s3).2.1
            = (delete_brief sub bid now s3Fail db s3).2.1) := by
  refine ⟨?_, ?_, ?_⟩
  · intro hterm
    have hnoop := expire_noop_of_found_nonterminal now sub bid db b c j hnd hfind hterm
    have hres : delete_brief sub bid now s3Fail db s3 = (⟨409⟩, db, s3) := by
      unfold delete_brief
      dsimp only
      rw [hfind]
      dsimp only
      rw [if_neg (by simp [hterm])]
      rw [hnoop]
    rw [hres]
    exact ⟨rfl, rfl, rfl⟩
  · intro hterm
    have hres : delete_brief sub bid now s3Fail db s3
        = (⟨200⟩,
            { db with
              briefs := (expireStalePending now 5 (some bid) db.briefs).filter
                (fun x => x.id != bid)
              , candidates := db.candidates.filter (fun x => x.id != c.id)
              , jobs := db.jobs.filter (fun x => x.id != j.id) },
            deleteS3Keys s3 s3Fail
              ([c.s3ResumePath, j.s3JdPath, b.s3OutputPath].filterMap id)) := by
      unfold delete_brief
      dsimp only
      rw [hfind]
      dsimp only
      rw [if_pos hterm]
    rw [hres]
    refine ⟨rfl, ?_, ?_, ?_, ?_⟩
    · intro b' hb'
      have := (List.mem_filter.mp hb').2
      simpa using this
    · intro c' hc'
      have := (List.mem_filter.mp hc').2
      simpa using this
    · intro j' hj'
      have := (List.mem_filter.mp hj').2
      simpa using this
    · intro b' hb' hne
      exact List.mem_filter.mpr ⟨hb', by simpa using hne⟩
  · intro f'
    exact delete_brief_s3_independent sub bid now f' s3Fail db s3

/-- Witness for `delete_brief_spec`: a fresh (non-stale) PENDING brief is
rejected with 409 and the database is untouched. -/
theorem delete_brief_spec_witness :
    (delete_brief "sub-a" 7 100 [] deleteDemoDb ["k"]).1.statusCode = 409
    ∧ (delete_brief "sub-a" 7 100 [] deleteDemoDb ["k"]).2.1 = deleteDemoDb := by
  have h := delete_brief_spec "sub-a" 7 100 [] deleteDemoDb ["k"]
    ⟨7, 1, 2, 3, BriefStatus.PENDING, none, 0⟩
    ⟨2, 1, some "candidates/2/resume_original.pdf"⟩
    ⟨3, 1, some "jobs/3/jd.txt"⟩ (by decide) (by decide)
  have h409 := h.1 (by decide)
  exact ⟨h409.1, h409.2.1⟩

end ProofBrief
